import Mathlib

/-!
Verification of the freminal helper scripts.

The embedding models the decode-and-present pipeline of
src/sequence_decoder.py and the byte-popping UTF-8 checker of
src/string_buffer_viewer.py.  Python strings are modelled as lists of
codepoints (Nat), since Python strings may hold lone surrogates that
Lean's Char excludes.
-/

namespace Freminal

/-- Python's chr: succeeds on 0 ≤ n ≤ 0x10FFFF (surrogates included),
raises ValueError otherwise.  Models the call chr(number) at
src/sequence_decoder.py line 52. -/
def pyChr (n : Int) : Except String Nat :=
  if 0 ≤ n ∧ n ≤ 1114111 then .ok n.toNat else .error ("ValueError")

/-- The decode loop of src/sequence_decoder.py lines 50-52: map each
integer through chr in order; the first invalid value raises. -/
def pyDecode : List Int → Except String (List Nat)
  | [] => .ok []
  | n :: rest =>
    match pyChr n with
    | .error e => .error e
    | .ok c =>
      match pyDecode rest with
      | .error e => .error e
      | .ok cs => .ok (c :: cs)

/-- A valid Unicode scalar value: 0–0x10FFFF excluding the surrogate
range 0xD800–0xDFFF (the spec's validity condition, section 4.2). -/
def isScalar (n : Int) : Prop :=
  0 ≤ n ∧ n ≤ 1114111 ∧ ¬(55296 ≤ n ∧ n ≤ 57343)

instance (n : Int) : Decidable (isScalar n) := by
  unfold isScalar; infer_instance

/-- The literal token "ESC" as a codepoint list (69, 83, 67). -/
def escTok : List Nat := [69, 83, 67]

/-- decoded_string.replace("\x1b", "ESC") at src/sequence_decoder.py
line 59: every occurrence of codepoint 27 becomes the three letters
E, S, C (single-character pattern, so replacement is per character). -/
def convertEscape : List Nat → List Nat
  | [] => []
  | c :: r => if c = 27 then 69 :: 83 :: 67 :: convertEscape r else c :: convertEscape r

/-- decoded_string.split("ESC") at src/sequence_decoder.py line 63:
greedy left-to-right split on non-overlapping occurrences of the
three-character token, keeping empty pieces. -/
def splitESC : List Nat → List (List Nat)
  | [] => [[]]
  | 69 :: 83 :: 67 :: r => [] :: splitESC r
  | c :: r =>
    match splitESC r with
    | [] => [[c]]
    | s :: ss => (c :: s) :: ss

/-- Number of non-overlapping occurrences of the token "ESC", counted
greedily left to right exactly as the split consumes them. -/
def countESC : List Nat → Nat
  | [] => 0
  | 69 :: 83 :: 67 :: r => countESC r + 1
  | _ :: r => countESC r

/-- Whether the letters E, S, C occur consecutively somewhere. -/
def hasESC : List Nat → Bool
  | [] => false
  | c :: r => (decide (c = 69) && decide (r.take 2 = [83, 67])) || hasESC r

/-- Python's "ESC".join: concatenate segments with the token between
consecutive segments (left inverse of the split). -/
def joinESC : List (List Nat) → List Nat
  | [] => []
  | [x] => x
  | x :: y :: ys => x ++ escTok ++ joinESC (y :: ys)

/-- The optional escape-conversion stage (src/sequence_decoder.py
lines 57-59): applied only when convert_escape is set. -/
def stage1 (convert : Bool) (s : List Nat) : List Nat :=
  if convert then convertEscape s else s

/-- The numbering loop of src/sequence_decoder.py lines 64-67:
i starts at 0 and increments once per printed command. -/
def numberFrom (i : Nat) : List (List Nat) → List (Nat × List Nat)
  | [] => []
  | c :: r => (i, c) :: numberFrom (i + 1) r

/-- What the script prints: either the repr of the whole decoded string
(non-split mode) or the numbered command segments (split mode).  The
quoted/escaped rendering applied by repr is presentation-layer
formatting; the model keeps the text itself. -/
inductive Presentation where
  | single : List Nat → Presentation
  | commands : List (Nat × List Nat) → Presentation
deriving DecidableEq, Repr

/-- The formatter of src/sequence_decoder.py lines 57-70: optional
escape conversion, then either split-and-number or a single repr. -/
def formatOutput (convert split : Bool) (decoded : List Nat) : Presentation :=
  let s := stage1 convert decoded
  if split then .commands (numberFrom 0 (splitESC s)) else .single s

/-- Outcome of one run of src/sequence_decoder.py: exit code, what was
printed to stdout (a diagnostic line, a Presentation, neither or both)
and whether an uncaught exception traceback went to stderr.  The parse
stage (the eval call at line 46) is abstracted by its result: the input
file is given as the already-parsed integer sequence, or none when
opening raises FileNotFoundError. -/
structure RunResult where
  exitCode : Nat
  stdoutDiag : Option String
  stdoutPres : Option Presentation
  stderrTraceback : Bool
deriving DecidableEq, Repr

/-- Control flow of src/sequence_decoder.py lines 33-70: a missing file
prints its diagnostic to stdout via print() and exits 1 with nothing on
stderr; an invalid chr() argument raises an uncaught ValueError, so
Python prints a traceback to stderr and exits 1 with nothing on stdout;
otherwise the Presentation goes to stdout and the script exits 0. -/
def runMain (path : String) (file : Option (List Int)) (convert split : Bool) : RunResult :=
  match file with
  | none =>
    { exitCode := 1
      stdoutDiag := some ("File " ++ path ++ " not found.")
      stdoutPres := none
      stderrTraceback := false }
  | some seq =>
    match pyDecode seq with
    | .error _ =>
      { exitCode := 1, stdoutDiag := none, stdoutPres := none, stderrTraceback := true }
    | .ok d =>
      { exitCode := 0, stdoutDiag := none,
        stdoutPres := some (formatOutput convert split d), stderrTraceback := false }

/-- Whitespace skipping for the strict parser. -/
def skipWs : List Char → List Char
  | c :: r => if c = ' ' ∨ c = '\t' ∨ c = '\n' ∨ c = '\r' then skipWs r else c :: r
  | [] => []

/-- Consume leading decimal digits, accumulating their value. -/
def digitsLoop (acc : Nat) : List Char → Nat × List Char
  | [] => (acc, [])
  | c :: r => if c.isDigit then digitsLoop (acc * 10 + (c.toNat - 48)) r else (acc, c :: r)

/-- Modelled from the spec: sections 4.1 and 9 require, in place of the
source's eval call (src/sequence_decoder.py line 46), a grammar-limited
parser for a single optionally negated integer with leading whitespace
allowed; anything else is a ParseError. -/
def parseOneInt (s : List Char) : Except String (Int × List Char) :=
  match skipWs s with
  | '-' :: r =>
    match r with
    | c :: _ =>
      if c.isDigit then
        match digitsLoop 0 r with
        | (v, rest) => .ok (-(v : Int), rest)
      else .error ("ParseError")
    | [] => .error ("ParseError")
  | c :: r =>
    if c.isDigit then
      match digitsLoop 0 (c :: r) with
      | (v, rest) => .ok ((v : Int), rest)
    else .error ("ParseError")
  | [] => .error ("ParseError")

/-- Modelled from the spec: the comma-separated continuation of the
integer list; fuel bounds the recursion and always suffices because
every iteration consumes at least the comma. -/
def parseMoreInts : Nat → List Int → List Char → Except String (List Int × List Char)
  | 0, _, _ => .error ("ParseError")
  | f + 1, acc, s =>
    match skipWs s with
    | ',' :: r =>
      match parseOneInt r with
      | .ok (v, rest) => parseMoreInts f (acc ++ [v]) rest
      | .error e => .error e
    | t => .ok (acc, t)

/-- Modelled from the spec: the strict integer-list parser that
sections 4.1 and 9 demand instead of the source's eval — only a
literal list of integers separated by commas, whitespace-tolerant,
optionally wrapped in brackets, is accepted; everything else fails
with a ParseError and no arbitrary expression is ever evaluated. -/
def specParseIntList (s0 : List Char) : Except String (List Int) :=
  match skipWs s0 with
  | '[' :: r =>
    match skipWs r with
    | ']' :: r2 => if skipWs r2 = [] then .ok [] else .error ("ParseError")
    | r1 =>
      match parseOneInt r1 with
      | .error e => .error e
      | .ok (v, rest) =>
        match parseMoreInts (s0.length + 1) [v] rest with
        | .error e => .error e
        | .ok (vs, rest2) =>
          match skipWs rest2 with
          | ']' :: r3 => if skipWs r3 = [] then .ok vs else .error ("ParseError")
          | _ => .error ("ParseError")
  | s1 =>
    match parseOneInt s1 with
    | .error e => .error e
    | .ok (v, rest) =>
      match parseMoreInts (s0.length + 1) [v] rest with
      | .error e => .error e
      | .ok (vs, rest2) =>
        if skipWs rest2 = [] then .ok vs else .error ("ParseError")

/-- Whether a byte is a UTF-8 continuation byte (0x80-0xBF). -/
def contByte (b : Nat) : Bool :=
  decide (128 ≤ b) && decide (b ≤ 191)

/-- Allowed second byte after a three-byte lead: E0 tightens the lower
bound against overlong forms, ED caps at 0x9F to exclude surrogates. -/
def thirdLeadSecond (b1 b2 : Nat) : Bool :=
  if b1 = 224 then decide (160 ≤ b2) && decide (b2 ≤ 191)
  else if b1 = 237 then decide (128 ≤ b2) && decide (b2 ≤ 159)
  else contByte b2

/-- Allowed second byte after a four-byte lead: F0 tightens against
overlong forms, F4 caps at 0x8F to stay at or below 0x10FFFF. -/
def fourthLeadSecond (b1 b2 : Nat) : Bool :=
  if b1 = 240 then decide (144 ≤ b2) && decide (b2 ≤ 191)
  else if b1 = 244 then decide (128 ≤ b2) && decide (b2 ≤ 143)
  else contByte b2

/-- Strict UTF-8 decoding of a byte list into codepoints, as Python's
bytes.decode with the utf-8 codec: rejects invalid lead bytes,
truncated sequences, overlong encodings and surrogates.  Models the
decode call at src/string_buffer_viewer.py line 7. -/
def utf8Decode : List Nat → Option (List Nat)
  | [] => some []
  | b1 :: rest =>
    if b1 ≤ 127 then
      (utf8Decode rest).map (fun t => b1 :: t)
    else if 194 ≤ b1 ∧ b1 ≤ 223 then
      match rest with
      | b2 :: rest2 =>
        if contByte b2 then
          (utf8Decode rest2).map (fun t => ((b1 - 192) * 64 + (b2 - 128)) :: t)
        else none
      | [] => none
    else if 224 ≤ b1 ∧ b1 ≤ 239 then
      match rest with
      | b2 :: b3 :: rest3 =>
        if thirdLeadSecond b1 b2 && contByte b3 then
          (utf8Decode rest3).map
            (fun t => ((b1 - 224) * 4096 + (b2 - 128) * 64 + (b3 - 128)) :: t)
        else none
      | _ => none
    else if 240 ≤ b1 ∧ b1 ≤ 244 then
      match rest with
      | b2 :: b3 :: b4 :: rest4 =>
        if fourthLeadSecond b1 b2 && contByte b3 && contByte b4 then
          (utf8Decode rest4).map
            (fun t =>
              ((b1 - 240) * 262144 + (b2 - 128) * 4096 + (b3 - 128) * 64 + (b4 - 128)) :: t)
        else none
      | _ => none
    else none

/-- The while-True loop of src/string_buffer_viewer.py lines 5-12: try
to decode the whole buffer; on success stop, on failure pop one byte
from the end and retry.  A pop on an empty buffer would raise
IndexError (unreachable, since the empty buffer decodes). -/
def popLoop (value : List Nat) : Except String (List Nat) :=
  if h : (utf8Decode value).isSome then .ok ((utf8Decode value).get h)
  else
    match value with
    | [] => .error ("IndexError")
    | c :: r => popLoop ((c :: r).dropLast)
termination_by value.length
decreasing_by simp [List.length_dropLast]

/-! Helper lemmas about the split, the count and the join. -/

theorem splitESC_cons_of_ne (c : Nat) (r : List Nat)
    (hne : ∀ r1 : List Nat, c = 69 → r = 83 :: 67 :: r1 → False) :
    splitESC (c :: r) =
      match splitESC r with
      | [] => [[c]]
      | s :: ss => (c :: s) :: ss :=
  splitESC.eq_3 c r hne

theorem splitESC_ne_nil (l : List Nat) : splitESC l ≠ [] := by
  induction l using splitESC.induct with
  | case1 => simp [splitESC]
  | case2 r ih => simp [splitESC]
  | case3 c r hne hnil ih => exact absurd hnil ih
  | case4 c r hne s ss hr ih =>
    rw [splitESC.eq_3 c r hne, hr]
    simp

theorem length_splitESC (l : List Nat) : (splitESC l).length = countESC l + 1 := by
  induction l using splitESC.induct with
  | case1 => simp [splitESC, countESC]
  | case2 r ih => simp [splitESC, countESC, ih]
  | case3 c r hne hnil ih => exact absurd hnil (splitESC_ne_nil r)
  | case4 c r hne s ss hr ih =>
    rw [splitESC.eq_3 c r hne, hr, countESC.eq_3 c r hne]
    rw [hr] at ih
    simpa using ih

theorem joinESC_cons_cons (c : Nat) (x : List Nat) (ss : List (List Nat)) :
    joinESC ((c :: x) :: ss) = c :: joinESC (x :: ss) := by
  cases ss <;> simp [joinESC]

theorem joinESC_splitESC (l : List Nat) : joinESC (splitESC l) = l := by
  induction l using splitESC.induct with
  | case1 => rfl
  | case2 r ih =>
    rw [splitESC.eq_2]
    obtain ⟨s, ss, hs⟩ : ∃ s ss, splitESC r = s :: ss := by
      rcases h : splitESC r with _ | ⟨s, ss⟩
      · exact absurd h (splitESC_ne_nil r)
      · exact ⟨s, ss, rfl⟩
    rw [hs] at ih ⊢
    show [] ++ escTok ++ joinESC (s :: ss) = 69 :: 83 :: 67 :: r
    rw [ih]
    rfl
  | case3 c r hne hnil ih => exact absurd hnil (splitESC_ne_nil r)
  | case4 c r hne s ss hr ih =>
    rw [splitESC.eq_3 c r hne, hr]
    rw [hr] at ih
    show joinESC ((c :: s) :: ss) = c :: r
    rw [joinESC_cons_cons, ih]

theorem escape_not_in_convert (s : List Nat) : 27 ∉ convertEscape s := by
  induction s with
  | nil => simp [convertEscape]
  | cons c r ih =>
    rcases eq_or_ne c 27 with h | h
    · simp [convertEscape, h, ih]
    · simp [convertEscape, h, ih, Ne.symm h]

theorem numberFrom_map_snd (i : Nat) (l : List (List Nat)) :
    (numberFrom i l).map Prod.snd = l := by
  induction l generalizing i with
  | nil => rfl
  | cons x xs ih => simp [numberFrom, ih]

theorem numberFrom_map_fst (i : Nat) (l : List (List Nat)) :
    (numberFrom i l).map Prod.fst = List.range' i l.length := by
  induction l generalizing i with
  | nil => rfl
  | cons x xs ih => simp [numberFrom, ih, List.range'_succ]

theorem hasESC_le_countESC (s : List Nat) (h : hasESC s = true) : 1 ≤ countESC s := by
  induction s using countESC.induct with
  | case1 => simp [hasESC] at h
  | case2 r ih => simp [countESC]
  | case3 c r hne ih =>
    rw [countESC.eq_3 c r hne]
    apply ih
    simp only [hasESC, Bool.or_eq_true, Bool.and_eq_true, decide_eq_true_eq] at h
    rcases h with ⟨h1, h2⟩ | h
    · exfalso
      rcases r with _ | ⟨a, _ | ⟨b, rr⟩⟩ <;> simp [List.take] at h2
      exact hne rr h1 (by rw [h2.1, h2.2])
    · exact h

theorem splitESC_replicate_27 (n : Nat) :
    splitESC (List.replicate n 27) = [List.replicate n 27] := by
  induction n with
  | zero => rfl
  | succ n ih =>
    rw [List.replicate_succ, splitESC_cons_of_ne 27 _ (by omega), ih]

theorem pyChr_scalar (n : Int) (h : isScalar n) : pyChr n = .ok n.toNat := by
  unfold pyChr
  rw [if_pos ⟨h.1, h.2.1⟩]

/-! Claim theorems. -/

/-- C1: for every list L of valid Unicode scalar values, decoding
succeeds, extracting each decoded character's codepoint gives back L
unchanged, and the decoded text has the same length as L. -/
theorem decode_roundtrip (L : List Int) (h : ∀ n ∈ L, isScalar n) :
    ∃ D, pyDecode L = .ok D ∧ D.map Int.ofNat = L ∧ D.length = L.length := by
  induction L with
  | nil => exact ⟨[], rfl, rfl, rfl⟩
  | cons n rest ih =>
    obtain ⟨D, hD, hmap, hlen⟩ := ih (fun m hm => h m (List.mem_cons_of_mem _ hm))
    have hn := h n (List.mem_cons_self _ _)
    refine ⟨n.toNat :: D, ?_, ?_, ?_⟩
    · simp [pyDecode, pyChr_scalar n hn, hD]
    · simp [hmap, Int.toNat_of_nonneg hn.1]
    · simp [hlen]

/-- Witness for C1 at the concrete input [72, 105]. -/
theorem decode_roundtrip_witness :
    ∃ D, pyDecode [72, 105] = .ok D ∧ D.map Int.ofNat = [72, 105] ∧
      D.length = ([72, 105] : List Int).length :=
  decode_roundtrip [72, 105] (by decide)

/-- C4: in split mode the Presentation is the ordered numbered list of
the pieces of the (possibly escape-converted) decoded text split on the
token "ESC": the segment texts are exactly the split pieces in order,
and the indices are 0, 1, ..., N where N is the number of delimiter
occurrences, so there are exactly N + 1 segments, empty ones included. -/
theorem split_mode_segments (b : Bool) (s : List Nat) :
    ∃ segs, formatOutput b true s = .commands segs ∧
      segs.map Prod.snd = splitESC (stage1 b s) ∧
      segs.map Prod.fst = List.range (countESC (stage1 b s) + 1) := by
  refine ⟨numberFrom 0 (splitESC (stage1 b s)), rfl, numberFrom_map_snd _ _, ?_⟩
  rw [numberFrom_map_fst, length_splitESC]
  exact (List.range_eq_range' _).symm

/-- C5: escape conversion rewrites every occurrence of codepoint 27 to
the letters "ESC" before splitting (no 27 survives conversion, and the
formatter converts first, then splits); on input [27, 91, 51, 49, 109]
with both flags set this yields exactly two numbered segments, segment 0
empty and segment 1 the text "[31m". -/
theorem convert_escape_rewrite :
    (∀ s : List Nat, 27 ∉ convertEscape s) ∧
    (∀ s : List Nat, formatOutput true true s =
      .commands (numberFrom 0 (splitESC (convertEscape s)))) ∧
    formatOutput true true [27, 91, 51, 49, 109] =
      .commands [(0, []), (1, [91, 51, 49, 109])] :=
  ⟨escape_not_in_convert, fun _ => rfl, by decide⟩

/-- C6: when escape conversion leaves the decoded text unchanged (in
particular it cannot alter the number of delimiter occurrences),
joining the split-mode segment texts with the token "ESC" reproduces
the decoded text exactly. -/
theorem split_join_inverse (b : Bool) (s : List Nat) (h : stage1 b s = s) :
    ∃ segs, formatOutput b true s = .commands segs ∧
      joinESC (segs.map Prod.snd) = s := by
  refine ⟨numberFrom 0 (splitESC (stage1 b s)), rfl, ?_⟩
  rw [numberFrom_map_snd, h, joinESC_splitESC]

/-- Witness for C6 at a concrete text containing both a raw codepoint
27 and a spelled-out occurrence of the token. -/
theorem split_join_inverse_witness :
    ∃ segs, formatOutput false true [27, 69, 83, 67, 72] = .commands segs ∧
      joinESC (segs.map Prod.snd) = [27, 69, 83, 67, 72] :=
  split_join_inverse false [27, 69, 83, 67, 72] rfl

/-- C7: the empty codepoint sequence decodes to the empty text; in
non-split mode the Presentation is the (quoted rendering of the) empty
string, in split mode it is a single empty segment numbered 0. -/
theorem empty_sequence_behavior :
    pyDecode [] = .ok [] ∧
    (∀ b, formatOutput b false [] = .single []) ∧
    (∀ b, formatOutput b true [] = .commands [(0, [])]) := by
  refine ⟨rfl, ?_, ?_⟩ <;> (intro b; cases b <;> rfl)

/-- C9: with convert_escape false, split mode splits on the literal
letters E, S, C, not on codepoint 27: a text of only codepoint-27
characters comes out as one unsplit segment, while any text containing
the three letters consecutively yields at least two segments. -/
theorem split_on_letters_not_codepoint (n : Nat) (s : List Nat) :
    formatOutput false true (List.replicate n 27) =
      .commands [(0, List.replicate n 27)] ∧
    (hasESC s = true → 2 ≤ (splitESC s).length) := by
  constructor
  · show Presentation.commands (numberFrom 0 (splitESC (List.replicate n 27))) = _
    rw [splitESC_replicate_27]
    rfl
  · intro h
    rw [length_splitESC]
    have := hasESC_le_countESC s h
    omega

/-- Witness for C9: three raw escape codepoints stay unsplit, while the
text A, E, S, C is split. -/
theorem split_on_letters_witness :
    formatOutput false true (List.replicate 3 27) =
      .commands [(0, List.replicate 3 27)] ∧
    2 ≤ (splitESC [65, 69, 83, 67]).length :=
  ⟨(split_on_letters_not_codepoint 3 [65, 69, 83, 67]).1,
    (split_on_letters_not_codepoint 3 [65, 69, 83, 67]).2 (by decide)⟩

/-- C2: what the source actually does at the range boundary: chr
accepts the surrogate 55296 (0xD800) and the script prints a
Presentation for it and exits 0, while 1114112 (0x110000) and -1 raise
ValueError, crashing the run with a traceback and no stdout output. -/
theorem out_of_range_source_behavior :
    pyDecode [(55296 : Int)] = .ok [55296] ∧
    runMain ("sequence.bin") (some [55296]) false false =
      { exitCode := 0, stdoutDiag := none,
        stdoutPres := some (.single [55296]), stderrTraceback := false } ∧
    pyDecode [(1114112 : Int)] = .error ("ValueError") ∧
    runMain ("sequence.bin") (some [1114112]) false false =
      { exitCode := 1, stdoutDiag := none, stdoutPres := none,
        stderrTraceback := true } ∧
    pyDecode [(-1 : Int)] = .error ("ValueError") :=
  ⟨rfl, rfl, rfl, rfl, rfl⟩

/-- C3: the strict parser required by the spec rejects malformed text
and non-literal expressions with a ParseError while accepting literal
integer lists. -/
theorem strict_parser_behavior :
    specParseIntList ("not a list").toList = .error ("ParseError") ∧
    specParseIntList ("[1]*3").toList = .error ("ParseError") ∧
    specParseIntList ("[72, 105]").toList = .ok [72, 105] ∧
    specParseIntList ("72, 105").toList = .ok [72, 105] ∧
    specParseIntList ("[]").toList = .ok [] :=
  ⟨rfl, rfl, rfl, rfl, rfl⟩

/-- C8 counterexample: with the input file missing, the source prints
its diagnostic to stdout via print() and nothing at all reaches the
error stream, so the claim that the diagnostic goes to the error
stream is false on the code. -/
theorem missing_file_diag_on_stdout :
    (runMain ("sequence.bin") none false false).stderrTraceback = false ∧
    (runMain ("sequence.bin") none false false).stdoutDiag =
      some ("File sequence.bin not found.") ∧
    (runMain ("sequence.bin") none false false).exitCode = 1 ∧
    (runMain ("sequence.bin") none false false).stdoutPres = none :=
  ⟨rfl, rfl, rfl, rfl⟩

/-- C8 amended: when the input file cannot be opened the script exits
nonzero after printing a diagnostic naming the offending path to the
output stream (stdout, not stderr), and prints no Presentation at all;
on a run that decodes successfully it exits zero with the Presentation
on stdout. -/
theorem exit_behavior (path : String) (seq : List Int) (d : List Nat)
    (convert split : Bool) (h : pyDecode seq = .ok d) :
    runMain path none convert split =
      { exitCode := 1, stdoutDiag := some ("File " ++ path ++ " not found."),
        stdoutPres := none, stderrTraceback := false } ∧
    runMain path (some seq) convert split =
      { exitCode := 0, stdoutDiag := none,
        stdoutPres := some (formatOutput convert split d),
        stderrTraceback := false } := by
  refine ⟨rfl, ?_⟩
  simp [runMain, h]

/-- Witness for the amended C8 at the input [72, 105]. -/
theorem exit_behavior_witness :
    runMain ("sequence.bin") none false false =
      { exitCode := 1,
        stdoutDiag := some ("File " ++ "sequence.bin" ++ " not found."),
        stdoutPres := none, stderrTraceback := false } ∧
    runMain ("sequence.bin") (some [72, 105]) false false =
      { exitCode := 0, stdoutDiag := none,
        stdoutPres := some (formatOutput false false [72, 105]),
        stderrTraceback := false } :=
  exit_behavior ("sequence.bin") [72, 105] [72, 105] false false rfl

/-- C10: the byte-popping UTF-8 checker terminates successfully for
every initial byte buffer: the empty buffer decodes to the empty
string, and the loop always reaches a buffer that decodes, never
popping from an empty buffer. -/
theorem poploop_total :
    utf8Decode [] = some [] ∧ ∀ v : List Nat, ∃ s, popLoop v = .ok s := by
  refine ⟨rfl, ?_⟩
  intro v
  induction v using popLoop.induct with
  | case1 x h => exact ⟨(utf8Decode x).get h, by rw [popLoop.eq_def]; simp [h]⟩
  | case2 h h2 => exact absurd (by decide : (utf8Decode []).isSome = true) h
  | case3 c r h h2 ih =>
    obtain ⟨s, hs⟩ := ih
    refine ⟨s, ?_⟩
    rw [popLoop.eq_def]
    simp only [h, dite_false]
    exact hs

end Freminal
